import Mathlib

/-!
Shallow embedding of the document-management component
(`src/frontend/src/pages/ManageSource.jsx`) of the repository:
the filter/sort engine, the selection manager, the delete workflow and
the document loader, together with theorems settling the specification
claims about them.

Modelling conventions:
* JS numbers that hold instants (`Date.getTime()` values) are `Int`
  milliseconds; `new Date(x) >= new Date(y)` on valid dates is `Int`
  comparison, and any comparison against an `Invalid Date` is `false`
  (JS relational operators on `NaN` are always false).
* The text typed in the "min size" box is carried already parsed: the
  `if (sizeFilter)` falsiness test on the raw string is the `empty`
  case, `parseFloat` returning `NaN` is the `nan` case, a parsed
  numeric value is `val q` (a rational; every size quotient
  `bytes / 2^20` is a dyadic rational, exactly representable as a JS
  double, so `Rat` comparison is faithful).
* Likewise the date box value: empty string (falsy, filter skipped),
  a non-empty string that `new Date` rejects (`Invalid Date`), or a
  parsed instant.
* A JS `Set` of ids is carried as its insertion-ordered list of
  distinct elements (`Array.from` of the set is the list itself).
* `async` handlers are functions of the outcome of each awaited call:
  `Except Unit _` is "the call threw" / "the call resolved".
-/

namespace ManageSource

/-- Sort direction, the `'asc' | 'desc'` strings of `sortConfig.direction`. -/
inductive Direction
  | asc
  | desc
deriving DecidableEq

/-- The three sortable column keys passed to `handleSort`. -/
inductive SortKey
  | name
  | uploadDate
  | size
deriving DecidableEq

/-- The `sortConfig` state: `{ key: null | string, direction: 'asc' | 'desc' }`. -/
structure SortConfig where
  key : Option SortKey
  direction : Direction
deriving DecidableEq

/-- A processed document record as built by `loadDocuments` (lines 41-48). -/
structure Document where
  id : String
  name : String
  storedFilename : Option String
  uploadDate : Int
  size : Nat
  fileHash : String
deriving DecidableEq

/-- A raw API document, one element of `response.pdfs`.  Fields that may be
absent or null are `Option`s. -/
structure RawDocument where
  original_filename : String
  stored_filename : Option String
  processed_time : Option Int
  uploaded_time : Int
  file_size : Option Nat
  file_hash : String
deriving DecidableEq

/-- A notification emitted through the `toast` channel. -/
inductive Toast
  | success (msg : String)
  | error (msg : String)
deriving DecidableEq

/-- JS `s || d` for an optional string: `null`/`undefined` and the empty
string are falsy. -/
def jsOrString : Option String → String → String
  | none, d => d
  | some s, d => if s = "" then d else s

/-- JS `t || d` for an optional numeric instant: `null`/`undefined` and `0`
are falsy. -/
def jsOrTime : Option Int → Int → Int
  | none, d => d
  | some t, d => if t = 0 then d else t

/-- JS `n || 0` for an optional non-negative size (`0` maps to `0` either way). -/
def jsOrNat : Option Nat → Nat
  | none => 0
  | some n => n

/-- The mapping applied to each raw document in `loadDocuments`:
`id = stored_filename || 'doc-<index>'`, `uploadDate = new Date(processed_time
|| uploaded_time)`, `size = file_size || 0`, `fileHash = file_hash`. -/
def processRawDoc (index : Nat) (doc : RawDocument) : Document :=
  { id := jsOrString doc.stored_filename ("doc-" ++ toString index)
    name := doc.original_filename
    storedFilename := doc.stored_filename
    uploadDate := jsOrTime doc.processed_time doc.uploaded_time
    size := jsOrNat doc.file_size
    fileHash := doc.file_hash }

/-- `loadDocuments` (lines 37-56) as a function of the prior collection and
the outcome of `getDocuments()`.  Returns the new collection and the toasts
emitted: on success the collection is rebuilt wholesale and no toast is
shown; on a thrown error the prior collection is untouched and a failure
toast is shown (the `loading` flag is presentation state and is omitted). -/
def loadDocuments (prior : List Document) (outcome : Except Unit (List RawDocument)) :
    List Document × List Toast :=
  match outcome with
  | Except.ok pdfs => (pdfs.mapIdx processRawDoc, [])
  | Except.error _ => (prior, [Toast.error "Failed to load documents"])

/-- The min-size filter input, already parsed: empty string (`if (sizeFilter)`
falsy, stage skipped), `parseFloat` giving `NaN` (stage skipped by the
`!isNaN` guard), or a numeric threshold. -/
inductive SizeInput
  | empty
  | nan
  | val (q : Rat)
deriving DecidableEq

/-- The date filter input, already parsed: empty string (stage skipped),
a non-empty string `new Date` turns into `Invalid Date`, or a valid instant
in epoch milliseconds. -/
inductive DateInput
  | empty
  | invalid
  | valid (ms : Int)
deriving DecidableEq

/-- The filter/sort state `filterAndSortDocuments` reads. -/
structure FilterState where
  searchTerm : String
  sizeFilter : SizeInput
  dateFilter : DateInput
  sortConfig : SortConfig
deriving DecidableEq

/-- `sub` occurs as a contiguous run inside `l` — JS `String.includes` on
character sequences. -/
def charsInclude (sub : List Char) : List Char → Bool
  | [] => sub.isEmpty
  | c :: rest => sub.isPrefixOf (c :: rest) || charsInclude sub rest

/-- JS `s.includes(t)`. -/
def jsIncludes (s t : String) : Bool :=
  charsInclude t.toList s.toList

/-- JS `s.toLowerCase()`, modelled per character (the documents' names in
scope are ASCII, where `toLowerCase` is exactly a per-character map). -/
def jsToLower (s : String) : String :=
  String.mk (s.toList.map Char.toLower)

/-- The search stage (lines 62-66): skipped when `searchTerm` is falsy,
otherwise a case-insensitive substring match on `name`. -/
def applySearch (term : String) (l : List Document) : List Document :=
  if term = "" then l
  else l.filter (fun d => jsIncludes (jsToLower d.name) (jsToLower term))

/-- The size stage (lines 69-77): skipped when the box is empty or
`parseFloat` gives `NaN`; otherwise keeps documents with
`size / (1024*1024) >= threshold`. -/
def applySize : SizeInput → List Document → List Document
  | SizeInput.empty, l => l
  | SizeInput.nan, l => l
  | SizeInput.val q, l => l.filter (fun d => decide ((d.size : Rat) / 1048576 ≥ q))

/-- The date stage (lines 80-85): skipped when the box is empty; with an
`Invalid Date` threshold `doc.uploadDate >= filterDate` is a `NaN`
comparison, false for every document; with a valid threshold it keeps
documents uploaded on/after it. -/
def applyDate : DateInput → List Document → List Document
  | DateInput.empty, l => l
  | DateInput.invalid, l => l.filter (fun _ => false)
  | DateInput.valid t, l => l.filter (fun d => decide (d.uploadDate ≥ t))

/-- The JS comparator body (lines 104-110): `-1/1/0` by the already
extracted key values under the given strict comparison, with the sign
flipped in `desc` direction. -/
def jsCompareBy {α : Type} (lt : α → α → Bool) (dir : Direction) (x y : α) : Int :=
  if lt x y then (match dir with | Direction.asc => -1 | Direction.desc => 1)
  else if lt y x then (match dir with | Direction.asc => 1 | Direction.desc => -1)
  else 0

/-- The name-column sort key: the lowercased display name as its character
sequence (JS `<` on strings is lexicographic on their character
sequences). -/
def nameKey (d : Document) : List Char :=
  (jsToLower d.name).toList

/-- The full comparator (lines 89-111): key extraction per `sortConfig.key`
(`getTime` for dates, `|| 0` for sizes — identity on a non-negative number,
`toLowerCase` for the name string), then the `-1/1/0` body. -/
def compareDocs (k : SortKey) (dir : Direction) (a b : Document) : Int :=
  match k with
  | SortKey.name => jsCompareBy (fun x y : List Char => decide (x < y)) dir (nameKey a) (nameKey b)
  | SortKey.uploadDate => jsCompareBy (fun x y : Int => decide (x < y)) dir a.uploadDate b.uploadDate
  | SortKey.size => jsCompareBy (fun x y : Nat => decide (x < y)) dir a.size b.size

/-- The non-strict order induced by the comparator: `compare(a,b) <= 0`.
`Array.prototype.sort` with a consistent comparator produces the unique
stable reordering sorted by this relation. -/
def jsSortLe (k : SortKey) (dir : Direction) (a b : Document) : Prop :=
  compareDocs k dir a b ≤ 0

instance (k : SortKey) (dir : Direction) : DecidableRel (jsSortLe k dir) :=
  fun a b => inferInstanceAs (Decidable (compareDocs k dir a b ≤ 0))

/-- The sort stage (lines 88-112): no key selected leaves the filtered
order; otherwise a stable sort by the comparator.  `insertionSort` with the
non-strict relation `compare(a,b) <= 0` keeps equal elements in their
original relative order, which is exactly the ECMAScript stable-sort
result. -/
def applySort (c : SortConfig) (l : List Document) : List Document :=
  match c.key with
  | none => l
  | some k => List.insertionSort (jsSortLe k c.direction) l

/-- `filterAndSortDocuments` (lines 58-115): search, size and date filters
applied in sequence, then the sort stage. -/
def filterAndSortDocuments (documents : List Document) (f : FilterState) : List Document :=
  applySort f.sortConfig
    (applyDate f.dateFilter (applySize f.sizeFilter (applySearch f.searchTerm documents)))

/-- `handleSort` (lines 117-123): clicking key `k` sorts by `k`, descending
exactly when `k` was already the key and the direction was ascending. -/
def handleSort (c : SortConfig) (k : SortKey) : SortConfig :=
  if c.key = some k ∧ c.direction = Direction.asc then
    { key := some k, direction := Direction.desc }
  else
    { key := some k, direction := Direction.asc }

/-- `handleSelectDocument` (lines 125-133): toggle one id in the selection
set (a JS `Set`, carried as its insertion-ordered duplicate-free list). -/
def handleSelectDocument (sel : List String) (id : String) : List String :=
  if id ∈ sel then sel.erase id else sel ++ [id]

/-- `new Set(l)` for a list of ids: keep the first occurrence of each
element, in order. -/
def jsSetOfList (l : List String) : List String :=
  l.foldl (fun acc x => if x ∈ acc then acc else acc ++ [x]) []

/-- `handleSelectAll` (lines 135-141): if the selection's size equals the
number of visible (filtered) documents the whole selection is cleared,
otherwise the selection becomes the set of visible ids. -/
def handleSelectAll (sel : List String) (filteredDocs : List Document) : List String :=
  if sel.length = filteredDocs.length then []
  else jsSetOfList (filteredDocs.map (fun d => d.id))

/-- Lines 150-153: map each selected id to `documents.find(d => d.id === id)
.fileHash`.  A lookup miss makes `doc.fileHash` a field access on
`undefined`, which throws; `Option.mapM` short-circuits to `none` at the
first such miss, before any later lookup. -/
def resolveHashes (documents : List Document) : List String → Option (List String)
  | [] => some []
  | id :: rest =>
    match (documents.find? (fun d => d.id == id)).map (fun d => d.fileHash) with
    | none => none
    | some h =>
      match resolveHashes documents rest with
      | none => none
      | some hs => some (h :: hs)

/-- Observable outcome of one `handleDeleteSelected` run: toasts emitted in
order, the selection afterwards, the payloads of the delete requests
actually issued, how many reloads of the collection were triggered, and the
document collection afterwards. -/
structure DeleteState where
  toasts : List Toast
  selection : List String
  deleteCalls : List (List String)
  reloads : Nat
  documents : List Document
deriving DecidableEq

/-- `handleDeleteSelected` (lines 143-171) as a function of the selection,
the loaded collection, and the outcomes of the awaited calls.
Control flow of the source: an empty selection short-circuits with a
validation toast; a failed id lookup throws inside `try` before
`deleteDocuments` is called, landing in `catch`; a thrown delete request
also lands in `catch` — in both catch paths the selection-clearing and
reload statements after the `await` are never executed; a resolved delete
toasts by `total_deleted`, clears the selection and awaits one
`loadDocuments()` (which handles its own errors and never throws). -/
def handleDeleteSelected (documents : List Document) (sel : List String)
    (deleteOutcome : Except Unit Nat) (listOutcome : Except Unit (List RawDocument)) :
    DeleteState :=
  if sel.length = 0 then
    { toasts := [Toast.error "No documents selected"], selection := sel,
      deleteCalls := [], reloads := 0, documents := documents }
  else
    match resolveHashes documents sel with
    | none =>
        { toasts := [Toast.error "Delete Failed"], selection := sel,
          deleteCalls := [], reloads := 0, documents := documents }
    | some hashes =>
        match deleteOutcome with
        | Except.error _ =>
            { toasts := [Toast.error "Delete Failed"], selection := sel,
              deleteCalls := [hashes], reloads := 0, documents := documents }
        | Except.ok n =>
            let firstToast :=
              if n > 0 then
                Toast.success ("Delete Successfully - " ++ toString n ++ " files deleted")
              else Toast.error "No files were deleted"
            let loaded := loadDocuments documents listOutcome
            { toasts := firstToast :: loaded.2, selection := [],
              deleteCalls := [hashes], reloads := 1, documents := loaded.1 }

/-! ### Concrete records used in scenarios, counterexamples and witnesses -/

/-- The `a.pdf` document of the spec's scenario: 1 MiB, uploaded 2024-01-01
(epoch milliseconds). -/
def docA : Document :=
  { id := "a.pdf", name := "a.pdf", storedFilename := some "a.pdf",
    uploadDate := 1704067200000, size := 1048576, fileHash := "hashA" }

/-- The `b.pdf` document of the spec's scenario: 2 MiB, uploaded 2024-02-01. -/
def docB : Document :=
  { id := "b.pdf", name := "b.pdf", storedFilename := some "b.pdf",
    uploadDate := 1706745600000, size := 2097152, fileHash := "hashB" }

/-- A document whose display name is the single uppercase letter `A`. -/
def docUpper : Document :=
  { id := "u", name := "A", storedFilename := some "u",
    uploadDate := 0, size := 0, fileHash := "hashU" }

/-- A document whose display name is the single lowercase letter `a`. -/
def docLower : Document :=
  { id := "l", name := "a", storedFilename := some "l",
    uploadDate := 0, size := 0, fileHash := "hashL" }

/-! ### Delete workflow claims -/

/-- C5: a delete request with zero selected documents emits the
`'No documents selected'` validation toast, issues no network call,
triggers no reload, and leaves both the selection and the document
collection unchanged, whatever the would-be call outcomes are. -/
theorem delete_empty_selection_validation (documents : List Document)
    (deleteOutcome : Except Unit Nat) (listOutcome : Except Unit (List RawDocument)) :
    handleDeleteSelected documents [] deleteOutcome listOutcome =
      { toasts := [Toast.error "No documents selected"], selection := [],
        deleteCalls := [], reloads := 0, documents := documents } := rfl

/-- C8: when `getDocuments()` throws, `loadDocuments` emits the
`'Failed to load documents'` failure toast and returns the previously
loaded collection untouched — no partial update. -/
theorem loadDocuments_error_preserves_state (prior : List Document) (e : Unit) :
    loadDocuments prior (Except.error e) =
      (prior, [Toast.error "Failed to load documents"]) := rfl

/-- C1 counterexample: with the selection `["a.pdf"]` resolvable against the
loaded collection `[docA]` and the bulk delete request throwing, the
handler emits the `'Delete Failed'` toast and triggers no reload, but the
selection is NOT cleared — it is still `["a.pdf"] ≠ []`, refuting the
claim that a transport error clears the selection. -/
theorem delete_transport_error_cex :
    handleDeleteSelected [docA] ["a.pdf"] (Except.error ()) (Except.ok []) =
      { toasts := [Toast.error "Delete Failed"], selection := ["a.pdf"],
        deleteCalls := [["hashA"]], reloads := 0, documents := [docA] } ∧
    (["a.pdf"] : List String) ≠ [] := by decide

/-- C1 (amended): when the selection is non-empty and resolvable and the
bulk delete request throws, the workflow shows the `'Delete Failed'`
failure toast, triggers no reload, and leaves the selection (and the
collection) unchanged — the clearing statement after the `await` is never
reached. -/
theorem delete_transport_error_behaviour (documents : List Document) (sel : List String)
    (hashes : List String) (e : Unit) (listOutcome : Except Unit (List RawDocument))
    (hne : sel ≠ [])
    (hres : resolveHashes documents sel = some hashes) :
    handleDeleteSelected documents sel (Except.error e) listOutcome =
      { toasts := [Toast.error "Delete Failed"], selection := sel,
        deleteCalls := [hashes], reloads := 0, documents := documents } := by
  have hlen : ¬ sel.length = 0 := by simpa using hne
  simp [handleDeleteSelected, hlen, hres]

/-- Witness for the amended C1 theorem at a concrete input. -/
theorem delete_transport_error_behaviour_witness :
    (["a.pdf"] : List String) ≠ [] ∧
    resolveHashes [docA] ["a.pdf"] = some ["hashA"] ∧
    handleDeleteSelected [docA] ["a.pdf"] (Except.error ()) (Except.ok []) =
      { toasts := [Toast.error "Delete Failed"], selection := ["a.pdf"],
        deleteCalls := [["hashA"]], reloads := 0, documents := [docA] } :=
  ⟨by decide, by decide,
    delete_transport_error_behaviour [docA] ["a.pdf"] ["hashA"] () (Except.ok [])
      (by decide) (by decide)⟩

/-- C4: when the bulk delete request resolves, a reported count `> 0`
shows a success toast carrying the count, a reported count `= 0` shows a
failure toast; in both cases the selection is cleared and exactly one
reload of the collection is triggered. -/
theorem delete_resolved_classification (documents : List Document) (sel : List String)
    (hashes : List String) (n : Nat) (listOutcome : Except Unit (List RawDocument))
    (hne : sel ≠ []) (hres : resolveHashes documents sel = some hashes) :
    (0 < n →
      (handleDeleteSelected documents sel (Except.ok n) listOutcome).toasts.head? =
        some (Toast.success ("Delete Successfully - " ++ toString n ++ " files deleted"))) ∧
    (n = 0 →
      (handleDeleteSelected documents sel (Except.ok n) listOutcome).toasts.head? =
        some (Toast.error "No files were deleted")) ∧
    (handleDeleteSelected documents sel (Except.ok n) listOutcome).selection = [] ∧
    (handleDeleteSelected documents sel (Except.ok n) listOutcome).reloads = 1 := by
  have hlen : ¬ sel.length = 0 := by simpa using hne
  refine ⟨fun hn => ?_, fun hn => ?_, ?_, ?_⟩
  · simp [handleDeleteSelected, hlen, hres, hn]
  · simp [handleDeleteSelected, hlen, hres, hn]
  · simp [handleDeleteSelected, hlen, hres]
  · simp [handleDeleteSelected, hlen, hres]

/-- Witness for the C4 theorem at a concrete input (two keys, count 2). -/
theorem delete_resolved_classification_witness :
    (["a.pdf", "b.pdf"] : List String) ≠ [] ∧
    resolveHashes [docA, docB] ["a.pdf", "b.pdf"] = some ["hashA", "hashB"] ∧
    ((0 < 2 →
      (handleDeleteSelected [docA, docB] ["a.pdf", "b.pdf"] (Except.ok 2)
          (Except.ok [])).toasts.head? =
        some (Toast.success ("Delete Successfully - " ++ toString 2 ++ " files deleted"))) ∧
    (2 = 0 →
      (handleDeleteSelected [docA, docB] ["a.pdf", "b.pdf"] (Except.ok 2)
          (Except.ok [])).toasts.head? =
        some (Toast.error "No files were deleted")) ∧
    (handleDeleteSelected [docA, docB] ["a.pdf", "b.pdf"] (Except.ok 2)
        (Except.ok [])).selection = [] ∧
    (handleDeleteSelected [docA, docB] ["a.pdf", "b.pdf"] (Except.ok 2)
        (Except.ok [])).reloads = 1) :=
  ⟨by decide, by decide,
    delete_resolved_classification [docA, docB] ["a.pdf", "b.pdf"] ["hashA", "hashB"] 2
      (Except.ok []) (by decide) (by decide)⟩

/-! ### Sort-state and selection claims -/

/-- Folding `handleSort` over any key sequence keeps the sort key selected
once it is selected. -/
theorem foldl_handleSort_key_isSome (ks : List SortKey) :
    ∀ c : SortConfig, c.key.isSome → (ks.foldl handleSort c).key.isSome := by
  induction ks with
  | nil => intro c h; exact h
  | cons a t ih =>
    intro c _h
    simp only [List.foldl_cons]
    apply ih
    unfold handleSort
    split <;> rfl

/-- C10: `handleSort k` always sets the sort key to `k`; the direction
becomes descending exactly when the prior state was key `k` ascending; and
after one `handleSort` call, no further sequence of `handleSort` calls can
return the state to "no sort key selected". -/
theorem handleSort_behaviour (c : SortConfig) (k : SortKey) (ks : List SortKey) :
    (handleSort c k).key = some k ∧
    ((handleSort c k).direction = Direction.desc ↔
      (c.key = some k ∧ c.direction = Direction.asc)) ∧
    (ks.foldl handleSort (handleSort c k)).key ≠ none := by
  refine ⟨?_, ?_, ?_⟩
  · unfold handleSort; split <;> rfl
  · unfold handleSort
    by_cases h : c.key = some k ∧ c.direction = Direction.asc
    · simp [h]
    · simp [h]
  · have hsome : (handleSort c k).key.isSome := by
      unfold handleSort; split <;> rfl
    have := foldl_handleSort_key_isSome ks (handleSort c k) hsome
    exact Option.isSome_iff_ne_none.mp this

/-- Witness for the C10 theorem at a concrete prior state and key sequence. -/
theorem handleSort_behaviour_witness :
    (handleSort { key := none, direction := Direction.asc } SortKey.name).key =
      some SortKey.name ∧
    ((handleSort { key := none, direction := Direction.asc } SortKey.name).direction =
        Direction.desc ↔
      (({ key := none, direction := Direction.asc } : SortConfig).key = some SortKey.name ∧
        ({ key := none, direction := Direction.asc } : SortConfig).direction = Direction.asc)) ∧
    ([SortKey.size].foldl handleSort
        (handleSort { key := none, direction := Direction.asc } SortKey.name)).key ≠ none :=
  handleSort_behaviour { key := none, direction := Direction.asc } SortKey.name [SortKey.size]

/-- Accumulator form of `jsSetOfList` on a duplicate-free list disjoint
from the accumulator: the fold appends the list unchanged. -/
theorem jsSetFold_of_nodup (l : List String) :
    ∀ acc : List String, l.Nodup → (∀ x ∈ l, x ∉ acc) →
      l.foldl (fun acc x => if x ∈ acc then acc else acc ++ [x]) acc = acc ++ l := by
  induction l with
  | nil => intro acc _ _; simp
  | cons a t ih =>
    intro acc hnd hdisj
    simp only [List.foldl_cons]
    rw [if_neg (hdisj a (List.mem_cons_self a t))]
    rw [ih (acc ++ [a]) (List.Nodup.of_cons hnd) ?_]
    · simp
    · intro x hx
      have hxacc : x ∉ acc := hdisj x (List.mem_cons_of_mem _ hx)
      have hxa : x ≠ a := by
        rintro rfl
        exact (List.nodup_cons.mp hnd).1 hx
      simp [List.mem_append, hxacc, hxa]

/-- `new Set(l)` built from a duplicate-free list is that list. -/
theorem jsSetOfList_of_nodup (l : List String) (h : l.Nodup) : jsSetOfList l = l := by
  unfold jsSetOfList
  simpa using jsSetFold_of_nodup l [] h (by simp)

/-- C2 counterexample: with visible collection `[docA]` (visible ids
`["a.pdf"]`) and prior selection `["b.pdf"]`, the visible set is not fully
selected (`"a.pdf"` is not selected), yet `handleSelectAll` clears the
selection instead of making it the visible ids — the clear happens on a
mere size match, refuting the claim. -/
theorem handleSelectAll_cex :
    handleSelectAll ["b.pdf"] [docA] = [] ∧
    ("a.pdf" : String) ∉ (["b.pdf"] : List String) ∧
    handleSelectAll ["b.pdf"] [docA] ≠ [docA].map (fun d => d.id) := by decide

/-- C2 (amended): `handleSelectAll` clears the whole selection exactly when
the selection's size equals the number of visible documents (even when the
selected ids are not the visible ones), and otherwise makes the selection
exactly the visible ids; consequently, when the visible ids are distinct,
two consecutive invocations starting from a selection whose size differs
from the visible count leave the selection empty. -/
theorem handleSelectAll_toggle (sel : List String) (docs : List Document) :
    (sel.length = docs.length → handleSelectAll sel docs = []) ∧
    (sel.length ≠ docs.length →
      handleSelectAll sel docs = jsSetOfList (docs.map (fun d => d.id))) ∧
    ((docs.map (fun d => d.id)).Nodup → sel.length ≠ docs.length →
      handleSelectAll (handleSelectAll sel docs) docs = []) := by
  refine ⟨fun h => ?_, fun h => ?_, fun hnd h => ?_⟩
  · simp [handleSelectAll, h]
  · simp [handleSelectAll, h]
  · have h1 : handleSelectAll sel docs = docs.map (fun d => d.id) := by
      rw [show handleSelectAll sel docs = jsSetOfList (docs.map (fun d => d.id)) from by
        simp [handleSelectAll, h]]
      exact jsSetOfList_of_nodup _ hnd
    rw [h1]
    simp [handleSelectAll]

/-- Witness for the amended C2 theorem at concrete inputs. -/
theorem handleSelectAll_toggle_witness :
    handleSelectAll ["b.pdf"] [docA] = [] ∧
    handleSelectAll [] [docA] = jsSetOfList ([docA].map (fun d => d.id)) ∧
    handleSelectAll (handleSelectAll [] [docA]) [docA] = [] :=
  ⟨(handleSelectAll_toggle ["b.pdf"] [docA]).1 (by decide),
   (handleSelectAll_toggle [] [docA]).2.1 (by decide),
   (handleSelectAll_toggle [] [docA]).2.2 (by decide) (by decide)⟩

/-! ### Hash-resolution claim -/

/-- Hash resolution fails as soon as one selected id has no lookup result. -/
theorem resolveHashes_eq_none_of_mem (documents : List Document) (sel : List String)
    (a : String) (ha : a ∈ sel)
    (hf : documents.find? (fun d => d.id == a) = none) :
    resolveHashes documents sel = none := by
  induction sel with
  | nil => cases ha
  | cons x xs ih =>
    rcases List.mem_cons.mp ha with rfl | hmem
    · simp [resolveHashes, hf]
    · cases hx : (documents.find? (fun d => d.id == x)).map (fun d => d.fileHash) with
      | none => simp [resolveHashes, hx]
      | some b => simp [resolveHashes, hx, ih hmem]

/-- C9: the delete confirm handler resolves ids by an unguarded
`documents.find(...).fileHash`.  When every selected id is the id of some
loaded document, resolution is total and each id yields the hash of the
(first) document carrying it; when some selected id matches no loaded
document, resolution fails — the field access throws — and no delete
request is ever issued. -/
theorem resolveHashes_unguarded_lookup (documents : List Document) (sel : List String) :
    ((∀ id ∈ sel, ∃ d ∈ documents, d.id = id) →
      ∃ hashes, resolveHashes documents sel = some hashes ∧
        List.Forall₂
          (fun id h => ∃ d, documents.find? (fun x => x.id == id) = some d ∧
            d ∈ documents ∧ d.id = id ∧ d.fileHash = h) sel hashes) ∧
    (∀ id ∈ sel, (∀ d ∈ documents, d.id ≠ id) →
      ∀ (deleteOutcome : Except Unit Nat) (listOutcome : Except Unit (List RawDocument)),
        resolveHashes documents sel = none ∧
        (handleDeleteSelected documents sel deleteOutcome listOutcome).deleteCalls = []) := by
  constructor
  · intro hall
    induction sel with
    | nil => exact ⟨[], rfl, List.Forall₂.nil⟩
    | cons a t ih =>
      have hafind : ∃ d, documents.find? (fun x => x.id == a) = some d := by
        rcases hall a (List.mem_cons_self a t) with ⟨d, hd, hid⟩
        have : (documents.find? (fun x => x.id == a)).isSome := by
          rw [List.find?_isSome]
          exact ⟨d, hd, by simp [hid]⟩
        exact Option.isSome_iff_exists.mp this
      rcases hafind with ⟨d, hd⟩
      rcases ih (fun id hid => hall id (List.mem_cons_of_mem a hid)) with ⟨hs, hhs, hfa⟩
      refine ⟨d.fileHash :: hs, ?_, ?_⟩
      · simp [resolveHashes, hd, hhs]
      · refine List.Forall₂.cons ⟨d, hd, ?_, ?_, rfl⟩ hfa
        · exact List.mem_of_find?_eq_some hd
        · simpa using List.find?_some hd
  · intro id hid hnone deleteOutcome listOutcome
    have hfind : documents.find? (fun x => x.id == id) = none := by
      rw [List.find?_eq_none]
      intro d hd
      simpa using hnone d hd
    have hres : resolveHashes documents sel = none :=
      resolveHashes_eq_none_of_mem documents sel id hid hfind
    refine ⟨hres, ?_⟩
    have hlen : ¬ sel.length = 0 := by
      simp only [List.length_eq_zero]
      rintro rfl
      cases hid
    simp [handleDeleteSelected, hlen, hres]

/-- Witness for the C9 theorem: resolution succeeds on a present id and
issues no delete call on an absent one. -/
theorem resolveHashes_unguarded_lookup_witness :
    (∃ hashes, resolveHashes [docA] ["a.pdf"] = some hashes ∧
      List.Forall₂
        (fun id h => ∃ d, [docA].find? (fun x => x.id == id) = some d ∧
          d ∈ [docA] ∧ d.id = id ∧ d.fileHash = h) ["a.pdf"] hashes) ∧
    (resolveHashes [docA] ["ghost"] = none ∧
      (handleDeleteSelected [docA] ["ghost"] (Except.ok 1) (Except.ok [])).deleteCalls = []) :=
  ⟨(resolveHashes_unguarded_lookup [docA] ["a.pdf"]).1 (by decide),
   (resolveHashes_unguarded_lookup [docA] ["ghost"]).2 "ghost" (by decide) (by decide)
     (Except.ok 1) (Except.ok [])⟩

/-! ### Filter/sort engine claims -/

/-- C3 counterexample: a non-empty date-filter value that is not a valid
date (an `Invalid Date` threshold) does not disable the date filter — it
excludes every document, because `uploadDate >= Invalid Date` is a `NaN`
comparison and always false: the view of the non-empty collection `[docA]`
is empty. -/
theorem dateFilter_invalid_cex :
    filterAndSortDocuments [docA]
        { searchTerm := "", sizeFilter := SizeInput.empty, dateFilter := DateInput.invalid,
          sortConfig := { key := none, direction := Direction.asc } } = [] ∧
    ([docA] : List Document) ≠ [] := by decide

/-- C3 (amended): with the other filters inactive and no sort key, an empty
date threshold disables the date filter (every document kept); a non-empty
invalid threshold excludes every document; a valid threshold keeps exactly
the documents whose `uploadedAt` is on/after it (inclusive). -/
theorem dateFilter_behaviour (docs : List Document) (t : Int) :
    filterAndSortDocuments docs
        { searchTerm := "", sizeFilter := SizeInput.empty, dateFilter := DateInput.empty,
          sortConfig := { key := none, direction := Direction.asc } } = docs ∧
    filterAndSortDocuments docs
        { searchTerm := "", sizeFilter := SizeInput.empty, dateFilter := DateInput.invalid,
          sortConfig := { key := none, direction := Direction.asc } } = [] ∧
    filterAndSortDocuments docs
        { searchTerm := "", sizeFilter := SizeInput.empty, dateFilter := DateInput.valid t,
          sortConfig := { key := none, direction := Direction.asc } } =
      docs.filter (fun d => decide (d.uploadDate ≥ t)) := by
  refine ⟨rfl, ?_, rfl⟩
  simp [filterAndSortDocuments, applySort, applyDate, applySize, applySearch]

/-- Membership is invariant under the sort stage (sorting permutes). -/
theorem mem_applySort (c : SortConfig) (l : List Document) (d : Document) :
    d ∈ applySort c l ↔ d ∈ l := by
  unfold applySort
  cases c.key with
  | none => exact Iff.rfl
  | some k => exact (List.perm_insertionSort _ l).mem_iff

/-- The spec scenario's filter: `minSizeMB = 1.5`, everything else off. -/
def minSizeFilter : FilterState :=
  { searchTerm := "", sizeFilter := SizeInput.val (3 / 2 : Rat), dateFilter := DateInput.empty,
    sortConfig := { key := none, direction := Direction.asc } }

/-- C6: every document in the derived view satisfies every active filter
predicate — case-insensitive name substring match, size in MiB at least
the threshold, upload on/after the date — the filters composing with
logical AND; and on the spec's scenario (`a.pdf` of 1048576 bytes,
`b.pdf` of 2097152 bytes, `minSizeMB = 1.5`) the view is exactly
`[b.pdf]`. -/
theorem deriveView_conjunctive :
    (∀ (docs : List Document) (f : FilterState) (d : Document),
      d ∈ filterAndSortDocuments docs f →
        (f.searchTerm ≠ "" → jsIncludes (jsToLower d.name) (jsToLower f.searchTerm) = true) ∧
        (∀ q, f.sizeFilter = SizeInput.val q → (d.size : Rat) / 1048576 ≥ q) ∧
        (∀ t, f.dateFilter = DateInput.valid t → d.uploadDate ≥ t)) ∧
    filterAndSortDocuments [docA, docB] minSizeFilter = [docB] := by
  constructor
  · intro docs f d hd
    have h1 : d ∈ applyDate f.dateFilter (applySize f.sizeFilter (applySearch f.searchTerm docs)) :=
      (mem_applySort _ _ _).mp hd
    have hdate : ∀ t, f.dateFilter = DateInput.valid t → d.uploadDate ≥ t := by
      intro t ht
      rw [ht] at h1
      exact of_decide_eq_true (List.mem_filter.mp h1).2
    have h2 : d ∈ applySize f.sizeFilter (applySearch f.searchTerm docs) := by
      cases hdf : f.dateFilter <;> rw [hdf] at h1
      · exact h1
      · exact (List.mem_filter.mp h1).1
      · exact (List.mem_filter.mp h1).1
    have hsize : ∀ q, f.sizeFilter = SizeInput.val q → (d.size : Rat) / 1048576 ≥ q := by
      intro q hq
      rw [hq] at h2
      exact of_decide_eq_true (List.mem_filter.mp h2).2
    have h3 : d ∈ applySearch f.searchTerm docs := by
      cases hsf : f.sizeFilter <;> rw [hsf] at h2
      · exact h2
      · exact h2
      · exact (List.mem_filter.mp h2).1
    have hsearch : f.searchTerm ≠ "" →
        jsIncludes (jsToLower d.name) (jsToLower f.searchTerm) = true := by
      intro hne
      unfold applySearch at h3
      rw [if_neg hne] at h3
      exact (List.mem_filter.mp h3).2
    exact ⟨hsearch, hsize, hdate⟩
  · have hA : ¬ ((docA.size : Rat) / 1048576 ≥ (3 / 2 : Rat)) := by
      norm_num [docA]
    have hB : (docB.size : Rat) / 1048576 ≥ (3 / 2 : Rat) := by
      norm_num [docB]
    simp [filterAndSortDocuments, minSizeFilter, applySearch, applySize, applyDate, applySort,
      List.filter_cons, hA, hB]

/-- Witness for the C6 theorem: member `docB` of a view with an active
search term and an active valid date threshold satisfies the active
predicates. -/
theorem deriveView_conjunctive_witness :
    (("b" : String) ≠ "" → jsIncludes (jsToLower docB.name) (jsToLower "b") = true) ∧
    (∀ q, SizeInput.empty = SizeInput.val q → (docB.size : Rat) / 1048576 ≥ q) ∧
    (∀ t, DateInput.valid 1704067200000 = DateInput.valid t → docB.uploadDate ≥ t) :=
  deriveView_conjunctive.1 [docA, docB]
    { searchTerm := "b", sizeFilter := SizeInput.empty,
      dateFilter := DateInput.valid 1704067200000,
      sortConfig := { key := none, direction := Direction.asc } }
    docB (by decide)

/-! ### Sort direction reversal (name column) -/

/-- The ascending comparator accepts exactly the non-decreasing key pairs. -/
theorem jsCompareBy_le_asc {α : Type} [LinearOrder α] (x y : α) :
    jsCompareBy (fun a b => decide (a < b)) Direction.asc x y ≤ 0 ↔ x ≤ y := by
  unfold jsCompareBy
  split_ifs with h1 h2
  · exact iff_of_true (by norm_num) (le_of_lt (of_decide_eq_true h1))
  · exact iff_of_false (by norm_num) (not_le.mpr (of_decide_eq_true h2))
  · exact iff_of_true le_rfl (le_of_not_lt (fun hc => h2 (decide_eq_true hc)))

/-- The descending comparator accepts exactly the non-increasing key pairs. -/
theorem jsCompareBy_le_desc {α : Type} [LinearOrder α] (x y : α) :
    jsCompareBy (fun a b => decide (a < b)) Direction.desc x y ≤ 0 ↔ y ≤ x := by
  unfold jsCompareBy
  split_ifs with h1 h2
  · exact iff_of_false (by norm_num) (not_le.mpr (of_decide_eq_true h1))
  · exact iff_of_true (by norm_num) (le_of_lt (of_decide_eq_true h2))
  · exact iff_of_true le_rfl (le_of_not_lt (fun hc => h1 (decide_eq_true hc)))

/-- Sorting the name column ascending accepts exactly non-decreasing
lowercased-name pairs. -/
theorem jsSortLe_name_asc (a b : Document) :
    jsSortLe SortKey.name Direction.asc a b ↔ nameKey a ≤ nameKey b :=
  jsCompareBy_le_asc (nameKey a) (nameKey b)

/-- Sorting the name column descending accepts exactly non-increasing
lowercased-name pairs. -/
theorem jsSortLe_name_desc (a b : Document) :
    jsSortLe SortKey.name Direction.desc a b ↔ nameKey b ≤ nameKey a :=
  jsCompareBy_le_desc (nameKey a) (nameKey b)

instance : IsTotal Document (jsSortLe SortKey.name Direction.asc) :=
  ⟨fun a b => by
    rw [jsSortLe_name_asc, jsSortLe_name_asc]
    exact le_total _ _⟩

instance : IsTrans Document (jsSortLe SortKey.name Direction.asc) :=
  ⟨fun a b c hab hbc => by
    rw [jsSortLe_name_asc] at *
    exact le_trans hab hbc⟩

instance : IsTotal Document (jsSortLe SortKey.name Direction.desc) :=
  ⟨fun a b => by
    rw [jsSortLe_name_desc, jsSortLe_name_desc]
    exact (le_total _ _).symm⟩

instance : IsTrans Document (jsSortLe SortKey.name Direction.desc) :=
  ⟨fun a b c hab hbc => by
    rw [jsSortLe_name_desc] at *
    exact le_trans hbc hab⟩

/-- Each filter stage yields a sublist of its input. -/
theorem applySearch_sublist (t : String) (l : List Document) : List.Sublist (applySearch t l) l := by
  unfold applySearch
  split
  · exact List.Sublist.refl l
  · exact List.filter_sublist l

theorem applySize_sublist (s : SizeInput) (l : List Document) : List.Sublist (applySize s l) l := by
  cases s with
  | empty => exact List.Sublist.refl l
  | nan => exact List.Sublist.refl l
  | val q => exact List.filter_sublist l

theorem applyDate_sublist (di : DateInput) (l : List Document) : List.Sublist (applyDate di l) l := by
  cases di with
  | empty => exact List.Sublist.refl l
  | invalid => exact List.filter_sublist l
  | valid t => exact List.filter_sublist l

/-- C7 counterexample: two documents with distinct display names `"A"` and
`"a"` share the same lowercased sort key, so both directions keep their
original stable order and the reversed ascending view differs from the
descending view — the claim fails for name collections that are distinct
only up to case. -/
theorem sort_name_reverse_cex :
    docUpper.name ≠ docLower.name ∧
    (filterAndSortDocuments [docUpper, docLower]
        { searchTerm := "", sizeFilter := SizeInput.empty, dateFilter := DateInput.empty,
          sortConfig := { key := some SortKey.name, direction := Direction.asc } }).reverse ≠
      filterAndSortDocuments [docUpper, docLower]
        { searchTerm := "", sizeFilter := SizeInput.empty, dateFilter := DateInput.empty,
          sortConfig := { key := some SortKey.name, direction := Direction.desc } } := by
  decide

/-- C7 (amended): for every collection whose lowercased names (the actual
comparator keys) are pairwise distinct, and any filter settings, the view
sorted by name ascending, reversed, equals the view sorted by name
descending. -/
theorem sort_name_reverse (docs : List Document) (f : FilterState)
    (hnd : docs.Pairwise (fun a b => nameKey a ≠ nameKey b)) :
    (filterAndSortDocuments docs
        { f with sortConfig := { key := some SortKey.name, direction := Direction.asc } }).reverse =
      filterAndSortDocuments docs
        { f with sortConfig := { key := some SortKey.name, direction := Direction.desc } } := by
  show (List.insertionSort (jsSortLe SortKey.name Direction.asc)
          (applyDate f.dateFilter (applySize f.sizeFilter (applySearch f.searchTerm docs)))).reverse =
    List.insertionSort (jsSortLe SortKey.name Direction.desc)
      (applyDate f.dateFilter (applySize f.sizeFilter (applySearch f.searchTerm docs)))
  set l := applyDate f.dateFilter (applySize f.sizeFilter (applySearch f.searchTerm docs)) with hl
  have hsub : List.Sublist l docs :=
    ((applyDate_sublist _ _).trans (applySize_sublist _ _)).trans (applySearch_sublist _ _)
  have hndl : l.Pairwise (fun a b => nameKey a ≠ nameKey b) := List.Pairwise.sublist hsub hnd
  have hsym : ∀ {x y : Document}, nameKey x ≠ nameKey y → nameKey y ≠ nameKey x :=
    fun h => Ne.symm h
  have hpermA : List.Perm (List.insertionSort (jsSortLe SortKey.name Direction.asc) l) l :=
    List.perm_insertionSort _ l
  have hpermD : List.Perm (List.insertionSort (jsSortLe SortKey.name Direction.desc) l) l :=
    List.perm_insertionSort _ l
  have hndA : (List.insertionSort (jsSortLe SortKey.name Direction.asc) l).Pairwise
      (fun a b => nameKey a ≠ nameKey b) := (List.Perm.pairwise_iff hsym hpermA).mpr hndl
  have hndD : (List.insertionSort (jsSortLe SortKey.name Direction.desc) l).Pairwise
      (fun a b => nameKey a ≠ nameKey b) := (List.Perm.pairwise_iff hsym hpermD).mpr hndl
  have hstrictA : (List.insertionSort (jsSortLe SortKey.name Direction.asc) l).Pairwise
      (fun a b => nameKey a < nameKey b) :=
    ((List.sorted_insertionSort _ l).and hndA).imp
      (fun h => lt_of_le_of_ne ((jsSortLe_name_asc _ _).mp h.1) h.2)
  have hstrictD : (List.insertionSort (jsSortLe SortKey.name Direction.desc) l).Pairwise
      (fun a b => nameKey b < nameKey a) :=
    ((List.sorted_insertionSort _ l).and hndD).imp
      (fun h => lt_of_le_of_ne ((jsSortLe_name_desc _ _).mp h.1) (Ne.symm h.2))
  have hrevA : ((List.insertionSort (jsSortLe SortKey.name Direction.asc) l).reverse).Pairwise
      (fun a b => nameKey b < nameKey a) := List.pairwise_reverse.mpr hstrictA
  have hperm : List.Perm (List.insertionSort (jsSortLe SortKey.name Direction.asc) l).reverse
      (List.insertionSort (jsSortLe SortKey.name Direction.desc) l) :=
    ((List.reverse_perm _).trans hpermA).trans hpermD.symm
  haveI : IsAntisymm Document (fun a b => nameKey b < nameKey a) :=
    ⟨fun a b h1 h2 => absurd h2 (lt_asymm h1)⟩
  exact List.eq_of_perm_of_sorted hperm hrevA hstrictD

/-- Witness for the amended C7 theorem on the two scenario documents. -/
theorem sort_name_reverse_witness :
    (filterAndSortDocuments [docA, docB]
        { searchTerm := "", sizeFilter := SizeInput.empty, dateFilter := DateInput.empty,
          sortConfig := { key := some SortKey.name, direction := Direction.asc } }).reverse =
      filterAndSortDocuments [docA, docB]
        { searchTerm := "", sizeFilter := SizeInput.empty, dateFilter := DateInput.empty,
          sortConfig := { key := some SortKey.name, direction := Direction.desc } } :=
  sort_name_reverse [docA, docB]
    { searchTerm := "", sizeFilter := SizeInput.empty, dateFilter := DateInput.empty,
      sortConfig := { key := some SortKey.name, direction := Direction.asc } }
    (by decide)

end ManageSource
